import Mathlib

/-!
Verification development for the affinidi-core-sdk repository.

Part A models the Bloom vault storage service (paged fetch, credential
codec, type filter, and the search / get / delete operations).  The
service implementation itself is not part of the checked-in sources
(only its unit test `sdk/core/test/unit/services/BloomVaultStorageService.test.ts`
is), so these definitions are modelled from the specification's
component design (sections 4.1 - 4.4).

Part B embeds `DidDocumentService.getPublicKey` and
`DidDocumentService.parseDid` from
`common-libs/common/src/services/DidDocumentService/index.ts`.
-/

/-- Decoded credential: a JSON object with at least an `id` and an
optional `type` sequence (spec section 3: absent / empty / populated are
all valid and preserved as-is). -/
structure Credential where
  id : String
  type : Option (List String)
deriving DecidableEq

/-- Modelled from the spec: `StoredRecord` is `{ id, cyphertext }` where
the cyphertext is an opaque string or null.  The codec (spec 4.2) is the
only consumer of the blob, so the blob is represented by its decode
result: `none` is a null/empty cyphertext, `some none` a non-null blob
of malformed JSON, and `some (some c)` a well-formed encoding of `c`. -/
structure StoredRecord where
  id : Nat
  cyphertext : Option (Option Credential)
deriving DecidableEq

/-- Remote vault error body `{code, message}` (spec section 6). -/
structure RemoteError where
  code : String
  message : String
deriving DecidableEq

/-- Error taxonomy of the vault operations (spec section 7).
`fuelExhausted` is an artifact of modelling the unbounded paging loop
with fuel; it is never reached with sufficient fuel. -/
inductive VaultError where
  | remote (e : RemoteError)
  | notFound
  | decodeFailure
  | fuelExhausted
deriving DecidableEq

/-- A network request issued by the service: a page read
`GET /data/{a}/{b}` or a range delete `DELETE /data/{a}/{b}`. -/
inductive Request where
  | get (a b : Nat)
  | del (a b : Nat)
deriving DecidableEq

/-- Modelled from the spec: the remote vault store interface (spec
section 6) — range reads and range deletes, each able to fail with a
structured remote error. -/
structure VaultBackend where
  page : Nat → Except RemoteError (List StoredRecord)
  deleteRange : Nat → Nat → Except RemoteError Unit

/-- Outcome of the paged fetch loop. -/
inductive FetchOutcome where
  | ok (records : List StoredRecord)
  | remoteErr (e : RemoteError)
  | outOfFuel
deriving DecidableEq

/-- Modelled from the spec: the paging loop of the Paged Vault Reader
(spec 4.1), whose implementation file is missing from the sources.
Starting at `offset`, request the window `[offset, offset+99]`; on an
empty page stop and return the accumulator; on a non-empty page (of any
size) append it and continue at `offset+100`; on a remote error abort.
The second component of the result is the trace of issued requests. -/
def fetchAllAux (b : VaultBackend) :
    Nat → Nat → List StoredRecord → List Request → FetchOutcome × List Request
  | 0, _, _, req => (.outOfFuel, req)
  | fuel + 1, offset, acc, req =>
    match b.page offset with
    | .error e => (.remoteErr e, req ++ [.get offset (offset + 99)])
    | .ok recs =>
      if recs.isEmpty then (.ok acc, req ++ [.get offset (offset + 99)])
      else fetchAllAux b fuel (offset + 100) (acc ++ recs) (req ++ [.get offset (offset + 99)])

/-- The list of `k` consecutive page-read windows starting at `offset`,
stepping by 100. -/
def getWindows : Nat → Nat → List Request
  | _, 0 => []
  | offset, k + 1 => .get offset (offset + 99) :: getWindows (offset + 100) k

/-- A healthy remote store holding the ordered record list `records`:
a page read at `offset` returns the slice of up to 100 records starting
there, and range deletes always succeed (deleting an empty range is not
an error). -/
def listBackend (records : List StoredRecord) : VaultBackend where
  page := fun offset => .ok ((records.drop offset).take 100)
  deleteRange := fun _ _ => .ok ()

/-- Fuel that is always sufficient for a store of the given size. -/
def listFuel (records : List StoredRecord) : Nat :=
  records.length / 100 + 2

/-- The full paged fetch against a healthy list-backed store. -/
def fetchAllList (records : List StoredRecord) : FetchOutcome × List Request :=
  fetchAllAux (listBackend records) (listFuel records) 0 [] []

theorem getWindows_length (offset k : Nat) : (getWindows offset k).length = k := by
  induction k generalizing offset with
  | zero => rfl
  | succ k ih => simp [getWindows, ih]

theorem getWindows_getLast? (offset k : Nat) :
    (getWindows offset (k + 1)).getLast? =
      some (.get (offset + 100 * k) (offset + 100 * k + 99)) := by
  induction k generalizing offset with
  | zero => simp [getWindows]
  | succ k ih =>
    rw [getWindows, getWindows, List.getLast?_cons_cons, ← getWindows, ih (offset + 100)]
    have h1 : offset + 100 + 100 * k = offset + 100 * (k + 1) := by ring
    rw [h1]

theorem fetchAllAux_list (records : List StoredRecord) :
    ∀ (fuel offset : Nat) (acc : List StoredRecord) (req : List Request),
      records.length ≤ offset + 100 * fuel →
      fetchAllAux (listBackend records) (fuel + 1) offset acc req =
        (.ok (acc ++ records.drop offset),
          req ++ getWindows offset ((records.length - offset + 99) / 100 + 1)) := by
  intro fuel
  induction fuel with
  | zero =>
    intro offset acc req h
    have hdrop : records.drop offset = [] := List.drop_eq_nil_of_le (by omega)
    have hpage : (listBackend records).page offset = .ok [] := by
      simp [listBackend, hdrop]
    have hm : records.length - offset = 0 := by omega
    simp [fetchAllAux, hpage, hdrop, hm, getWindows]
  | succ fuel ih =>
    intro offset acc req h
    by_cases hle : records.length ≤ offset
    · have hdrop : records.drop offset = [] := List.drop_eq_nil_of_le hle
      have hpage : (listBackend records).page offset = .ok [] := by
        simp [listBackend, hdrop]
      have hm : records.length - offset = 0 := by omega
      simp [fetchAllAux, hpage, hdrop, hm, getWindows]
    · have hlt : offset < records.length := by omega
      have hdropne : records.drop offset ≠ [] := by
        intro hc
        have := List.drop_eq_nil_iff.mp hc
        omega
      have hne : (records.drop offset).take 100 ≠ [] := by
        intro hc
        rcases List.take_eq_nil_iff.mp hc with h1 | h1
        · exact absurd h1 (by omega)
        · exact hdropne h1
      have hpage : (listBackend records).page offset = .ok ((records.drop offset).take 100) := rfl
      have hstep :
          fetchAllAux (listBackend records) (fuel + 1 + 1) offset acc req =
            fetchAllAux (listBackend records) (fuel + 1) (offset + 100)
              (acc ++ (records.drop offset).take 100) (req ++ [.get offset (offset + 99)]) := by
        rw [fetchAllAux, hpage]
        all_goals simp [List.isEmpty_iff, hne]
      rw [hstep, ih (offset + 100) _ _ (by omega)]
      have hacc :
          (acc ++ (records.drop offset).take 100) ++ records.drop (offset + 100) =
            acc ++ records.drop offset := by
        rw [List.append_assoc]
        congr 1
        have hdd : records.drop (offset + 100) = (records.drop offset).drop 100 := by
          rw [List.drop_drop]
        rw [hdd, List.take_append_drop]
      rw [hacc]
      have hwin :
          getWindows offset ((records.length - offset + 99) / 100 + 1) =
            .get offset (offset + 99) ::
              getWindows (offset + 100) ((records.length - (offset + 100) + 99) / 100 + 1) := by
        have hcount :
            (records.length - offset + 99) / 100 + 1 =
              ((records.length - (offset + 100) + 99) / 100 + 1) + 1 := by
          omega
        rw [hcount, getWindows]
      rw [hwin]
      simp

theorem fetchAllList_eq (records : List StoredRecord) :
    fetchAllList records =
      (.ok records, getWindows 0 ((records.length + 99) / 100 + 1)) := by
  have h : fetchAllList records =
      fetchAllAux (listBackend records) (records.length / 100 + 1 + 1) 0 [] [] := rfl
  rw [h, fetchAllAux_list records (records.length / 100 + 1) 0 [] [] (by omega)]
  simp

/-- Modelled from the spec: the Credential Codec (spec 4.2), whose
implementation file is missing from the sources.  A null/empty
cyphertext decodes to `none` (silent skip); malformed JSON in a
non-null cyphertext is a hard decode error; otherwise the decoded
credential is produced. -/
def decodeRecord (r : StoredRecord) : Except VaultError (Option Credential) :=
  match r.cyphertext with
  | none => .ok none
  | some none => .error .decodeFailure
  | some (some c) => .ok (some c)

/-- Decode every fetched record, dropping the null-cyphertext skips and
propagating the first decode error. -/
def decodeAll : List StoredRecord → Except VaultError (List Credential)
  | [] => .ok []
  | r :: rest => do
    let c? ← decodeRecord r
    let cs ← decodeAll rest
    match c? with
    | none => pure cs
    | some c => pure (c :: cs)

/-- A credential's `type` sequence, treating an absent/undefined `type`
as the empty sequence (spec 4.3). -/
def credTypes (c : Credential) : List String :=
  c.type.getD []

/-- The filter predicate as worded by spec section 4.3: AND across
groups, OR within a group, an empty group vacuously true.  Kept only to
compare the spec's wording against the implemented filter; the
repository's unit tests (six-credential intersection fixture and the
`[[]]` fixture) contradict it. -/
def matchesTypeQuerySpec (tq : List (List String)) (c : Credential) : Bool :=
  tq.all fun g => g.isEmpty || g.any fun t => (credTypes c).contains t

/-- Modelled from the spec: the Credential Filter of the missing
`BloomVaultStorageService.ts`.  The spec's 4.3 wording (AND across
groups, OR within a group) is contradicted by the repository's unit
tests and by the spec's own section 8 expectations, so the predicate
follows the tests: the credential's `type` must be present (JavaScript
truthiness of the field; an empty array is truthy), and some group of
the query must have every one of its strings in the credential's
`type` sequence. -/
def matchesTypeQuery (tq : List (List String)) (c : Credential) : Bool :=
  c.type.isSome && tq.any fun g => g.all fun t => (credTypes c).contains t

/-- Apply the filter when a type query is given; identity otherwise. -/
def filterByTypes (cs : List Credential) : Option (List (List String)) → List Credential
  | none => cs
  | some tq => cs.filter (matchesTypeQuery tq)

/-- Run the paged fetch and translate its outcome into the uniform
error shape (remote `{code, message}` surfaced verbatim, spec 4.4). -/
def runFetch (b : VaultBackend) (fuel : Nat) :
    Except VaultError (List StoredRecord) × List Request :=
  match fetchAllAux b fuel 0 [] [] with
  | (.ok recs, req) => (.ok recs, req)
  | (.remoteErr e, req) => (.error (.remote e), req)
  | (.outOfFuel, req) => (.error .fuelExhausted, req)

/-- Modelled from the spec: `searchCredentials` (spec 4.4): fetch the
full record set, decode it, drop nulls, and filter by the optional type
query. -/
def searchCredentials (b : VaultBackend) (fuel : Nat)
    (tq : Option (List (List String))) :
    Except VaultError (List Credential) × List Request :=
  match runFetch b fuel with
  | (.ok recs, req) => ((decodeAll recs).map (fun cs => filterByTypes cs tq), req)
  | (.error e, req) => (.error e, req)

/-- Modelled from the spec: `getCredentialById` (spec 4.4): fetch and
decode the full set, return the first credential whose `id` equals the
argument, or fail with NotFound. -/
def getCredentialById (b : VaultBackend) (fuel : Nat) (credId : String) :
    Except VaultError Credential × List Request :=
  match runFetch b fuel with
  | (.ok recs, req) =>
    (match decodeAll recs with
     | .ok cs =>
       match cs.find? (fun c => c.id == credId) with
       | some c => .ok c
       | none => .error .notFound
     | .error e => .error e, req)
  | (.error e, req) => (.error e, req)

/-- Modelled from the spec: `deleteCredentialById` (spec 4.4): fetch
and decode the full set, locate the credential's local position in the
decoded sequence, and issue a single delete addressed `[i, i]`; fail
with NotFound before issuing any delete when the id is absent. -/
def deleteCredentialById (b : VaultBackend) (fuel : Nat) (credId : String) :
    Except VaultError Unit × List Request :=
  match runFetch b fuel with
  | (.ok recs, req) =>
    (match decodeAll recs with
     | .ok cs =>
       match cs.findIdx? (fun c => c.id == credId) with
       | some i =>
         match b.deleteRange i i with
         | .ok _ => (.ok (), req ++ [.del i i])
         | .error e => (.error (.remote e), req ++ [.del i i])
       | none => (.error .notFound, req)
     | .error e => (.error e, req))
  | (.error e, req) => (.error e, req)

/-- The highest page offset touched by a request trace (0 when no page
was ever fetched); this is the `highestFetchedOffset` session state the
spec's `deleteAllCredentials` addresses (spec 4.4). -/
def highestFetchedOffset (req : List Request) : Nat :=
  req.foldl (fun acc r => match r with | .get a _ => max acc a | .del _ _ => acc) 0

/-- Modelled from the spec: `deleteAllCredentials` (spec 4.4): without
re-fetching, issue one delete addressed by the full currently-known
range `[0, highestFetchedOffset + 99]`. -/
def deleteAllCredentials (b : VaultBackend) (hi : Nat) :
    Except VaultError Unit × List Request :=
  match b.deleteRange 0 (hi + 99) with
  | .ok _ => (.ok (), [.del 0 (hi + 99)])
  | .error e => (.error (.remote e), [.del 0 (hi + 99)])

/-- Build a healthy record list from a list of payloads: `none` is a
tombstoned record with null cyphertext, `some c` a record whose
cyphertext is the well-formed encoding of `c`.  (The remote record `id`
field is not consulted by any operation; the tests use `id: 0`
throughout.) -/
def mkRecords (cs : List (Option Credential)) : List StoredRecord :=
  cs.map fun c? => ⟨0, c?.map some⟩

theorem mkRecords_length (cs : List (Option Credential)) :
    (mkRecords cs).length = cs.length := by
  simp [mkRecords]

theorem decodeAll_mkRecords (cs : List (Option Credential)) :
    decodeAll (mkRecords cs) = .ok (cs.filterMap id) := by
  induction cs with
  | nil => rfl
  | cons c? rest ih =>
    cases c? with
    | none =>
      have h1 : decodeAll (mkRecords (none :: rest)) =
          decodeAll (⟨0, none⟩ :: mkRecords rest) := rfl
      rw [h1, decodeAll, ih]
      rfl
    | some c =>
      have h1 : decodeAll (mkRecords (some c :: rest)) =
          decodeAll (⟨0, some (some c)⟩ :: mkRecords rest) := rfl
      rw [h1, decodeAll, ih]
      rfl

theorem filterMap_length_add_count (cs : List (Option Credential)) :
    (cs.filterMap id).length + cs.count none = cs.length := by
  induction cs with
  | nil => rfl
  | cons c? rest ih =>
    cases c? with
    | none => simp [List.count_cons]; omega
    | some c => simp [List.count_cons]; omega

theorem searchCredentials_list (cs : List (Option Credential))
    (tq : Option (List (List String))) :
    searchCredentials (listBackend (mkRecords cs)) (listFuel (mkRecords cs)) tq =
      (.ok (filterByTypes (cs.filterMap id) tq),
        getWindows 0 ((cs.length + 99) / 100 + 1)) := by
  have hfetch := fetchAllList_eq (mkRecords cs)
  rw [fetchAllList] at hfetch
  unfold searchCredentials runFetch
  rw [hfetch]
  simp [decodeAll_mkRecords, mkRecords_length, Except.map]

theorem getCredentialById_list (cs : List (Option Credential)) (credId : String) :
    getCredentialById (listBackend (mkRecords cs)) (listFuel (mkRecords cs)) credId =
      (match (cs.filterMap id).find? (fun c => c.id == credId) with
        | some c => .ok c
        | none => .error .notFound,
        getWindows 0 ((cs.length + 99) / 100 + 1)) := by
  have hfetch := fetchAllList_eq (mkRecords cs)
  rw [fetchAllList] at hfetch
  unfold getCredentialById runFetch
  rw [hfetch]
  simp [decodeAll_mkRecords, mkRecords_length]

theorem deleteCredentialById_list (cs : List (Option Credential)) (credId : String) :
    deleteCredentialById (listBackend (mkRecords cs)) (listFuel (mkRecords cs)) credId =
      (match (cs.filterMap id).findIdx? (fun c => c.id == credId) with
        | some i => (.ok (), getWindows 0 ((cs.length + 99) / 100 + 1) ++ [.del i i])
        | none => (.error .notFound, getWindows 0 ((cs.length + 99) / 100 + 1))) := by
  have hfetch := fetchAllList_eq (mkRecords cs)
  rw [fetchAllList] at hfetch
  unfold deleteCredentialById runFetch
  rw [hfetch]
  simp [decodeAll_mkRecords, mkRecords_length]
  cases (cs.filterMap id).findIdx? (fun c => c.id == credId) with
  | none => rfl
  | some i => rfl

theorem matchesTypeQuery_iff (tq : List (List String)) (c : Credential) :
    matchesTypeQuery tq c = true ↔
      c.type ≠ none ∧ ∃ g ∈ tq, ∀ t ∈ g, t ∈ credTypes c := by
  unfold matchesTypeQuery
  simp [List.all_eq_true, List.any_eq_true, Option.isSome_iff_ne_none]

theorem matchesTypeQuery_eq_decide (tq : List (List String)) (c : Credential) :
    matchesTypeQuery tq c =
      decide (c.type ≠ none ∧ ∃ g ∈ tq, ∀ t ∈ g, t ∈ credTypes c) := by
  by_cases h : c.type ≠ none ∧ ∃ g ∈ tq, ∀ t ∈ g, t ∈ credTypes c
  · rw [decide_eq_true h]
    exact (matchesTypeQuery_iff tq c).mpr h
  · rw [decide_eq_false h]
    exact Bool.eq_false_iff.mpr fun hb => h ((matchesTypeQuery_iff tq c).mp hb)

theorem matchesTypeQuery_vacuous (c : Credential) :
    matchesTypeQuery [[]] c = c.type.isSome := by
  unfold matchesTypeQuery
  simp

theorem filterByTypes_vacuous (cs : List Credential) :
    filterByTypes cs (some [[]]) = cs.filter fun c => c.type.isSome := by
  unfold filterByTypes
  exact List.filter_congr fun c _ => matchesTypeQuery_vacuous c

/-! Part B: `DidDocumentService` from
`common-libs/common/src/services/DidDocumentService/index.ts`. -/

/-- One entry of a DID document's `publicKey` list (spec section 6):
`{ id, publicKeyPem? | publicKeyBase58? | publicKeyHex? }`. -/
structure PublicKeySection where
  id : String
  publicKeyPem : Option String
  publicKeyBase58 : Option String
  publicKeyHex : Option String
deriving DecidableEq

/-- A DID document, reduced to the `publicKey` list consulted by
`getPublicKey`. -/
structure DidDocument where
  publicKey : List PublicKeySection
deriving DecidableEq

/-- JavaScript truthiness of an optional string field: undefined/null
and the empty string are falsy. -/
def truthy : Option String → Bool
  | none => false
  | some s => !(s == "")

/-- JavaScript `String.prototype.split` with a single-character
separator, on the character list of the string: splitting never fails
and splitting the empty string yields one empty component. -/
def jsSplit (sep : Char) : List Char → List (List Char)
  | [] => [[]]
  | c :: rest =>
    let r := jsSplit sep rest
    if c == sep then [] :: r
    else
      match r with
      | [] => [[c]]
      | h :: t => (c :: h) :: t

/-- `jsSplit` lifted to strings. -/
def jsSplitString (sep : Char) (s : String) : List String :=
  (jsSplit sep s.data).map String.mk

/-- Modelled from the spec: the external `did-resolver` `parse` call
(a dependency, not part of the sources) as used on line 32 of
`DidDocumentService/index.ts` — split the DID URL into the part before
the first `#` (the DID) and the part after it (the fragment), and
reconstitute `did#fragment`. -/
def didFragmentForm (s : String) : String :=
  let parts := jsSplitString '#' s
  (parts.headD "") ++ "#" ++ ((parts.drop 1).headD "")

/-- The target key id resolved by `getPublicKey`: the explicit `keyId`
argument when given (and truthy), else the reconstructed
`did#fragment` of the full key id. -/
def resolveKeyId (fulleKeyId : String) (keyId? : Option String) : String :=
  match keyId? with
  | some k => if k == "" then didFragmentForm fulleKeyId else k
  | none => didFragmentForm fulleKeyId

/-- Value of a hexadecimal digit character, if it is one. -/
def hexDigitVal? (c : Char) : Option Nat :=
  if '0' ≤ c ∧ c ≤ '9' then some (c.toNat - '0'.toNat)
  else if 'a' ≤ c ∧ c ≤ 'f' then some (c.toNat - 'a'.toNat + 10)
  else if 'A' ≤ c ∧ c ≤ 'F' then some (c.toNat - 'A'.toNat + 10)
  else none

/-- Node's `Buffer.from(s, 'hex')`: decode pairs of hex digits, stopping
at the first incomplete or invalid pair. -/
def bufferFromHex : List Char → List Nat
  | c1 :: c2 :: rest =>
    match hexDigitVal? c1, hexDigitVal? c2 with
    | some h, some l => (16 * h + l) :: bufferFromHex rest
    | _, _ => []
  | _ => []

/-- Node's `Buffer.from(s)`: the UTF-8 bytes of the string. -/
def bufferFromUtf8 (s : String) : List Nat :=
  (s.data.flatMap String.utf8EncodeChar).map fun b => b.toNat

/-- Errors `getPublicKey` can raise: the `'Key not found.'` throw, and
the `TypeError` of `Buffer.from(undefined, 'hex')` when the matched key
section carries none of the three encodings. -/
inductive GetKeyError where
  | keyNotFound
  | invalidHexField
deriving DecidableEq

/-- `DidDocumentService.getPublicKey` (lines 29-51 of
`DidDocumentService/index.ts`): resolve the target key id, find the
first `publicKey` entry whose `id` equals the target or the original
full key id, and return its key material preferring PEM bytes, then
base58 bytes, then hex-decoded bytes. -/
def getPublicKey (fulleKeyId : String) (didDocument : DidDocument)
    (keyId? : Option String) : Except GetKeyError (List Nat) :=
  let keyId := resolveKeyId fulleKeyId keyId?
  match didDocument.publicKey.find? (fun sec => sec.id == keyId || sec.id == fulleKeyId) with
  | none => .error .keyNotFound
  | some keySection =>
    if truthy keySection.publicKeyPem then
      .ok (bufferFromUtf8 (keySection.publicKeyPem.getD ""))
    else if truthy keySection.publicKeyBase58 then
      .ok (bufferFromUtf8 (keySection.publicKeyBase58.getD ""))
    else
      match keySection.publicKeyHex with
      | none => .error .invalidHexField
      | some h => .ok (bufferFromHex h.data)

/-- `DidDocumentService.parseDid` (lines 60-64): split on `:` and keep
the three components after the leading scheme element; missing elements
are `none` (JavaScript `undefined`), and no input is rejected. -/
def parseDid (did : String) : List (Option String) :=
  let parts := jsSplitString ':' did
  [parts[1]?, parts[2]?, parts[3]?]

/-! Concrete sample data mirroring the unit test fixtures. -/

/-- A sample decoded credential (stands for the test's `signedCredential`). -/
def sampleCred : Credential :=
  ⟨"claimId:63b5d11c0d1b5566", some ["Credential", "ProofOfNameCredential"]⟩

/-- A second credential with a different embedded id (the test's
`{...signedCredential, id: 'identifier'}`). -/
def otherCred : Credential :=
  ⟨"identifier", some ["Credential", "ProofOfNameCredential"]⟩

/-- A well-formed stored record holding `sampleCred`. -/
def sampleRecord : StoredRecord := ⟨0, some (some sampleCred)⟩

/-- A remote page oracle that fails every page read with the given
remote error (the test's 500 `{code:'COM-1'}` reply). -/
def failingBackend (e : RemoteError) : VaultBackend where
  page := fun _ => .error e
  deleteRange := fun _ _ => .ok ()

/-- The six-credential fixture of the intersection test
(`#getAllCredentials when multiple credential requirements and multiple
credential intersect`). -/
def sixCreds : List (Option Credential) :=
  [some ⟨"c0", some ["Alex", "Sergiy"]⟩,
   some ⟨"c1", some ["Stas"]⟩,
   some ⟨"c2", some ["Denis", "Igor", "Max", "Artem"]⟩,
   some ⟨"c3", some ["Sasha", "Alex", "Stas"]⟩,
   some ⟨"c4", some ["Roman"]⟩,
   some ⟨"c5", some ["Max", "Sergiy"]⟩]

/-- The spec's deterministic null-skip page layout `100 (1 null) + 50`:
150 raw records, the 6th of the first page tombstoned. -/
def layout150 : List (Option Credential) :=
  List.replicate 5 (some sampleCred) ++ [none] ++ List.replicate 94 (some sampleCred) ++
    List.replicate 50 (some sampleCred)

/-- C1: for every owner record set, the paged fetch requests windows
`[offset, offset+99]` starting at offset 0, appends each returned page
to the accumulator, terminates exactly when a returned page is empty
(a non-empty page of fewer than 100 records does not terminate the
loop), and returns the concatenated records in the remote's positional
order. -/
theorem bloom_paged_fetch_spec :
    (∀ (b : VaultBackend) (fuel offset : Nat) (acc : List StoredRecord) (req : List Request),
        b.page offset = .ok [] →
        fetchAllAux b (fuel + 1) offset acc req =
          (.ok acc, req ++ [.get offset (offset + 99)])) ∧
    (∀ (b : VaultBackend) (fuel offset : Nat) (acc recs : List StoredRecord)
        (req : List Request),
        b.page offset = .ok recs → recs ≠ [] →
        fetchAllAux b (fuel + 1) offset acc req =
          fetchAllAux b fuel (offset + 100) (acc ++ recs) (req ++ [.get offset (offset + 99)])) ∧
    (∀ records : List StoredRecord,
        fetchAllList records = (.ok records, getWindows 0 ((records.length + 99) / 100 + 1))) := by
  refine ⟨?_, ?_, fetchAllList_eq⟩
  · intro b fuel offset acc req h
    rw [fetchAllAux, h]
    rfl
  · intro b fuel offset acc recs req h hne
    rw [fetchAllAux, h]
    cases recs with
    | nil => exact absurd rfl hne
    | cons r rs => rfl

/-- Witness for C1: the empty store answers with one empty-page probe;
a one-record page (shorter than 100 but non-empty) makes the loop
continue at offset 100; and the one-record store is fetched whole with
two page requests. -/
theorem bloom_paged_fetch_spec_witness :
    fetchAllAux (listBackend []) 1 0 [] [] = (.ok [], [.get 0 99]) ∧
    fetchAllAux (listBackend [sampleRecord]) 1 0 [] [] =
      fetchAllAux (listBackend [sampleRecord]) 0 100 [sampleRecord] [.get 0 99] ∧
    fetchAllList [sampleRecord] = (.ok [sampleRecord], getWindows 0 2) := by
  refine ⟨?_, ?_, ?_⟩
  · exact bloom_paged_fetch_spec.1 (listBackend []) 0 0 [] [] rfl
  · exact bloom_paged_fetch_spec.2.1 (listBackend [sampleRecord]) 0 0 [] [sampleRecord] [] rfl
      (by simp)
  · exact bloom_paged_fetch_spec.2.2 [sampleRecord]

/-- C3 counterexample: for an owner record set of size N = 99 (one of
the sizes the claim lists), the fetch makes 2 page requests — the
99-record page is non-empty so an extra `[100,199]` probe is needed —
while the claim's formula `ceil((N+1)/100)` gives 1. -/
theorem bloom_page_request_count_cex :
    ¬ ((fetchAllList (List.replicate 99 sampleRecord)).2.length = (99 + 1 + 99) / 100) := by
  decide

/-- C3 (amended): for every owner record set of size N the paged fetch
makes exactly `ceil(N/100) + 1` page requests (`(N+99)/100 + 1` in
natural division), the last of which is the extra empty-page request
that confirms termination; this agrees with the claim's
`ceil((N+1)/100)` only when N is a multiple of 100. -/
theorem bloom_page_request_count_amended :
    ∀ records : List StoredRecord,
      (fetchAllList records).2.length = (records.length + 99) / 100 + 1 ∧
      (fetchAllList records).2.getLast? =
        some (.get (100 * ((records.length + 99) / 100))
          (100 * ((records.length + 99) / 100) + 99)) ∧
      (listBackend records).page (100 * ((records.length + 99) / 100)) = .ok [] := by
  intro records
  have h := fetchAllList_eq records
  refine ⟨?_, ?_, ?_⟩
  · rw [h]
    exact getWindows_length 0 _
  · rw [h]
    have hl := getWindows_getLast? 0 ((records.length + 99) / 100)
    simpa using hl
  · have hge : records.length ≤ 100 * ((records.length + 99) / 100) := by omega
    have hdrop : records.drop (100 * ((records.length + 99) / 100)) = [] :=
      List.drop_eq_nil_of_le hge
    simp [listBackend, hdrop]

set_option maxRecDepth 20000 in
/-- C4: records with null cyphertext are silently excluded from the
decoded output while still counted in the raw fetch: the decoded list
is the order-preserving extraction of the non-null payloads, its length
plus the number of nulls is the raw length, and the spec's
`100 (1 null) + 50 + empty` layout yields 149 decoded credentials from
150 raw records in 3 page requests. -/
theorem bloom_null_cyphertext_skip_spec :
    (∀ cso : List (Option Credential),
        searchCredentials (listBackend (mkRecords cso)) (listFuel (mkRecords cso)) none =
          (.ok (cso.filterMap id), getWindows 0 ((cso.length + 99) / 100 + 1)) ∧
        (cso.filterMap id).length + cso.count none = cso.length) ∧
    (mkRecords layout150).length = 150 ∧
    (searchCredentials (listBackend (mkRecords layout150)) (listFuel (mkRecords layout150))
        none).1 = .ok (List.replicate 149 sampleCred) ∧
    (fetchAllList (mkRecords layout150)).2 = getWindows 0 3 := by
  refine ⟨fun cso => ⟨?_, filterMap_length_add_count cso⟩, ?_, ?_, ?_⟩
  · rw [searchCredentials_list]
    rfl
  · rfl
  · rfl
  · rfl

/-- C5: a remote failure on the first page request propagates the
remote's `{code, message}` pair unchanged through `searchCredentials`,
`getCredentialById` and `deleteCredentialById`, with no partial result,
no delete issued, and no retry (exactly one page request in the
trace). -/
theorem bloom_remote_failure_propagation_spec :
    ∀ (e : RemoteError) (f : Nat) (tq : Option (List (List String))) (credId : String),
      searchCredentials (failingBackend e) (f + 1) tq = (.error (.remote e), [.get 0 99]) ∧
      getCredentialById (failingBackend e) (f + 1) credId = (.error (.remote e), [.get 0 99]) ∧
      deleteCredentialById (failingBackend e) (f + 1) credId =
        (.error (.remote e), [.get 0 99]) := by
  intro e f tq credId
  have hf : fetchAllAux (failingBackend e) (f + 1) 0 [] [] = (.remoteErr e, [.get 0 99]) := by
    rw [fetchAllAux]
    rfl
  refine ⟨?_, ?_, ?_⟩
  · unfold searchCredentials runFetch
    rw [hf]
  · unfold getCredentialById runFetch
    rw [hf]
  · unfold deleteCredentialById runFetch
    rw [hf]

/-- The four-credential fixture of the `types=[[]]` test: one ordinary
credential, one with a custom type, one with an empty type array, and
one whose `type` property is absent (the test's `type: undefined` is
dropped by `JSON.stringify`). -/
def fourCreds : List (Option Credential) :=
  [some ⟨"claimId:63b5d11c0d1b5566", some ["Credential", "ProofOfNameCredential"]⟩,
   some ⟨"t1", some ["type1"]⟩,
   some ⟨"t2", some []⟩,
   some ⟨"t3", none⟩]

/-- C2 counterexample: the claim's AND-of-OR predicate contradicts the
code (as pinned by the unit tests).  On the six-credential fixture the
claim's predicate selects no credential at all, while the filter
returns the 3rd and 4th credentials (the test's expectation); and
`searchCredentials(region, [[]])` returns only the 3 credentials whose
`type` is present, not all 4 — the credential with absent `type` is
excluded, contrary to the claim. -/
theorem bloom_type_filter_cex :
    (sixCreds.filterMap id).filter (matchesTypeQuerySpec [["Denis"], ["Stas", "Alex"]]) = [] ∧
    filterByTypes (sixCreds.filterMap id) (some [["Denis"], ["Stas", "Alex"]]) =
      [⟨"c2", some ["Denis", "Igor", "Max", "Artem"]⟩,
       ⟨"c3", some ["Sasha", "Alex", "Stas"]⟩] ∧
    (searchCredentials (listBackend (mkRecords fourCreds)) (listFuel (mkRecords fourCreds))
        (some [[]])).1 =
      .ok [⟨"claimId:63b5d11c0d1b5566", some ["Credential", "ProofOfNameCredential"]⟩,
           ⟨"t1", some ["type1"]⟩, ⟨"t2", some []⟩] ∧
    fourCreds.filterMap id ≠
      [⟨"claimId:63b5d11c0d1b5566", some ["Credential", "ProofOfNameCredential"]⟩,
       ⟨"t1", some ["type1"]⟩, ⟨"t2", some []⟩] := by
  refine ⟨rfl, rfl, ?_, by decide⟩
  rw [searchCredentials_list]
  rfl

/-- C2 (amended): filtering returns exactly the order-preserving
subsequence of credentials whose `type` is present and for which some
group of the type query has all of its strings in the credential's
`type` sequence (OR across groups, AND within a group; an empty group
requires nothing beyond `type` presence); in particular
`searchCredentials(region, [[]])` returns exactly the credentials whose
`type` is present (including an empty `type`), and on the
six-credential fixture `[['Denis'], ['Stas','Alex']]` selects exactly
the 3rd and 4th credentials, in order. -/
theorem bloom_type_filter_amended :
    (∀ (tq : List (List String)) (cs : List Credential),
        (filterByTypes cs (some tq)).Sublist cs ∧
        filterByTypes cs (some tq) =
          cs.filter (fun c => decide (c.type ≠ none ∧ ∃ g ∈ tq, ∀ t ∈ g, t ∈ credTypes c))) ∧
    (∀ cso : List (Option Credential),
        searchCredentials (listBackend (mkRecords cso)) (listFuel (mkRecords cso))
            (some [[]]) =
          (.ok ((cso.filterMap id).filter fun c => c.type.isSome),
            getWindows 0 ((cso.length + 99) / 100 + 1))) ∧
    (searchCredentials (listBackend (mkRecords sixCreds)) (listFuel (mkRecords sixCreds))
        (some [["Denis"], ["Stas", "Alex"]])).1 =
      .ok [⟨"c2", some ["Denis", "Igor", "Max", "Artem"]⟩,
           ⟨"c3", some ["Sasha", "Alex", "Stas"]⟩] := by
  refine ⟨fun tq cs => ⟨?_, ?_⟩, fun cso => ?_, ?_⟩
  · exact List.filter_sublist cs
  · exact List.filter_congr fun c _ => matchesTypeQuery_eq_decide tq c
  · rw [searchCredentials_list, filterByTypes_vacuous]
  · rw [searchCredentials_list]
    rfl

/-- C6: `deleteCredentialById` first fetches and decodes the full
record set; when the decoded sequence holds a credential with the given
id at local position `i`, it issues exactly one delete addressed
`[i, i]`; when no decoded credential has the id it fails with NotFound
having issued no delete request, so the remote state is untouched. -/
theorem bloom_delete_by_id_spec :
    ∀ (cso : List (Option Credential)) (credId : String),
      (∀ i, (cso.filterMap id).findIdx? (fun c => c.id == credId) = some i →
          deleteCredentialById (listBackend (mkRecords cso)) (listFuel (mkRecords cso))
              credId =
            (.ok (), getWindows 0 ((cso.length + 99) / 100 + 1) ++ [.del i i])) ∧
      ((cso.filterMap id).findIdx? (fun c => c.id == credId) = none →
          deleteCredentialById (listBackend (mkRecords cso)) (listFuel (mkRecords cso))
              credId =
            (.error .notFound, getWindows 0 ((cso.length + 99) / 100 + 1))) ∧
      ((cso.filterMap id).findIdx? (fun c => c.id == credId) = none ↔
          ∀ c ∈ cso.filterMap id, ¬ c.id = credId) := by
  intro cso credId
  have h := deleteCredentialById_list cso credId
  refine ⟨?_, ?_, ?_⟩
  · intro i hi
    rw [h, hi]
  · intro hn
    rw [h, hn]
  · rw [List.findIdx?_eq_none_iff]
    simp

/-- Witness for C6: on the two-record test store, deleting by the first
credential's embedded id issues the single delete `[0, 0]` after the
two page reads, and deleting a missing id fails with NotFound issuing
no delete. -/
theorem bloom_delete_by_id_spec_witness :
    deleteCredentialById (listBackend (mkRecords [some sampleCred, some otherCred]))
        (listFuel (mkRecords [some sampleCred, some otherCred]))
        "claimId:63b5d11c0d1b5566" =
      (.ok (), getWindows 0 2 ++ [.del 0 0]) ∧
    deleteCredentialById (listBackend (mkRecords [some sampleCred, some otherCred]))
        (listFuel (mkRecords [some sampleCred, some otherCred])) "missing-id" =
      (.error .notFound, getWindows 0 2) := by
  constructor
  · exact (bloom_delete_by_id_spec [some sampleCred, some otherCred]
      "claimId:63b5d11c0d1b5566").1 0 rfl
  · exact (bloom_delete_by_id_spec [some sampleCred, some otherCred] "missing-id").2.1 rfl

theorem getWindows_foldl_max (k : Nat) :
    ∀ (offset a : Nat),
      (getWindows offset (k + 1)).foldl
          (fun acc r => match r with | .get x _ => max acc x | .del _ _ => acc) a =
        max a (offset + 100 * k) := by
  induction k with
  | zero =>
    intro offset a
    simp [getWindows]
  | succ k ih =>
    intro offset a
    rw [getWindows, List.foldl_cons, ih (offset + 100) (max a offset)]
    have h1 : offset + 100 + 100 * k = offset + 100 * (k + 1) := by ring
    rw [h1, Nat.max_assoc, Nat.max_eq_right (by omega : offset ≤ offset + 100 * (k + 1))]

theorem highestFetchedOffset_getWindows (k : Nat) :
    highestFetchedOffset (getWindows 0 (k + 1)) = 100 * k := by
  unfold highestFetchedOffset
  rw [getWindows_foldl_max k 0 0]
  omega

/-- C7: `deleteAllCredentials` issues exactly one delete request,
addressed `[0, highestFetchedOffset + 99]` — `[0, 99]` when at most one
page is known — with no page read (no re-fetch); against the healthy
store the delete succeeds whatever the store holds (in particular on an
already-empty store, so repeated calls are idempotent and error-free);
and after a fetch of an N-record store the highest fetched offset is
`100 * ((N + 99) / 100)`, so the addressed range covers every page
boundary the fetch touched. -/
theorem bloom_delete_all_spec :
    ∀ (b : VaultBackend) (hi : Nat) (records : List StoredRecord),
      (deleteAllCredentials b hi).2 = [.del 0 (hi + 99)] ∧
      (∀ r ∈ (deleteAllCredentials b hi).2, ∀ x y, r ≠ .get x y) ∧
      (deleteAllCredentials b 0).2 = [.del 0 99] ∧
      deleteAllCredentials (listBackend records) hi = (.ok (), [.del 0 (hi + 99)]) ∧
      deleteAllCredentials (listBackend []) hi = deleteAllCredentials (listBackend records) hi ∧
      highestFetchedOffset (fetchAllList records).2 =
        100 * ((records.length + 99) / 100) := by
  have htrace : ∀ (b : VaultBackend) (hi : Nat),
      (deleteAllCredentials b hi).2 = [.del 0 (hi + 99)] := by
    intro b hi
    unfold deleteAllCredentials
    split <;> rfl
  intro b hi records
  refine ⟨htrace b hi, ?_, htrace b 0, rfl, rfl, ?_⟩
  · intro r hr x y
    rw [htrace b hi] at hr
    simp at hr
    subst hr
    simp
  · rw [fetchAllList_eq]
    exact highestFetchedOffset_getWindows ((records.length + 99) / 100)

/-- Witness for C7: a fresh session (nothing fetched, state 0) against
an empty store issues exactly one delete `[0, 99]`, which succeeds, its
single request is not a page read, and the highest fetched offset after
fetching the empty store is 0. -/
theorem bloom_delete_all_spec_witness :
    (deleteAllCredentials (listBackend []) 0).2 = [.del 0 99] ∧
    deleteAllCredentials (listBackend []) 0 = (.ok (), [.del 0 99]) ∧
    highestFetchedOffset (fetchAllList []).2 = 0 ∧
    Request.del 0 99 ≠ Request.get 0 99 := by
  have hmain := bloom_delete_all_spec (listBackend []) 0 []
  refine ⟨hmain.1, hmain.2.2.2.1, hmain.2.2.2.2.2, ?_⟩
  exact hmain.2.1 (.del 0 99) (by rw [hmain.1]; simp) 0 99

theorem getPublicKey_eq (fulleKeyId : String) (doc : DidDocument) (keyId? : Option String) :
    getPublicKey fulleKeyId doc keyId? =
      match doc.publicKey.find? (fun sec =>
          sec.id == resolveKeyId fulleKeyId keyId? || sec.id == fulleKeyId) with
      | none => .error .keyNotFound
      | some keySection =>
        if truthy keySection.publicKeyPem then
          .ok (bufferFromUtf8 (keySection.publicKeyPem.getD ""))
        else if truthy keySection.publicKeyBase58 then
          .ok (bufferFromUtf8 (keySection.publicKeyBase58.getD ""))
        else
          match keySection.publicKeyHex with
          | none => .error .invalidHexField
          | some hx => .ok (bufferFromHex hx.data) := rfl

theorem getPublicKey_found_ne (fulleKeyId : String) (doc : DidDocument)
    (keyId? : Option String) (s : PublicKeySection)
    (hfind : doc.publicKey.find? (fun sec =>
        sec.id == resolveKeyId fulleKeyId keyId? || sec.id == fulleKeyId) = some s) :
    getPublicKey fulleKeyId doc keyId? ≠ .error .keyNotFound := by
  rw [getPublicKey_eq, hfind]
  by_cases h1 : truthy s.publicKeyPem
  · simp [h1]
  · by_cases h2 : truthy s.publicKeyBase58
    · simp [h1, h2]
    · cases hx : s.publicKeyHex with
      | none => simp [h1, h2, hx]
      | some v => simp [h1, h2, hx]

/-- A document whose only entry matches the full key id but not the
resolved target key id. -/
def cexDoc : DidDocument :=
  ⟨[⟨"did:elem:full#primary", some "pem-material", none, none⟩]⟩

/-- C8 counterexample: with the explicit target key id
`did:elem:other#key1`, no entry of the document matches the target, yet
`getPublicKey` succeeds (returning the PEM bytes) because the entry's
id equals the original full key id — so KeyNotFound does not occur
"exactly when no entry matches the target key id". -/
theorem didDoc_getPublicKey_target_only_cex :
    getPublicKey "did:elem:full#primary" cexDoc (some "did:elem:other#key1") =
      .ok (bufferFromUtf8 "pem-material") ∧
    (∀ s ∈ cexDoc.publicKey,
        s.id ≠ resolveKeyId "did:elem:full#primary" (some "did:elem:other#key1")) := by
  exact ⟨rfl, by decide⟩

/-- C8 (amended): `getPublicKey` fails with KeyNotFound exactly when no
entry of the document's publicKey list matches the target key id or the
original full key-id argument; when a matching entry exists it returns
the key material by encoding priority — the PEM field's bytes if
present (truthy), else the base58 field's bytes, else the hex field
decoded from hex — PEM over base58 over hex even when several fields
are present. -/
theorem didDoc_getPublicKey_amended :
    ∀ (fulleKeyId : String) (doc : DidDocument) (keyId? : Option String),
      (getPublicKey fulleKeyId doc keyId? = .error .keyNotFound ↔
        ∀ s ∈ doc.publicKey,
          s.id ≠ resolveKeyId fulleKeyId keyId? ∧ s.id ≠ fulleKeyId) ∧
      (∀ s, doc.publicKey.find? (fun sec =>
            sec.id == resolveKeyId fulleKeyId keyId? || sec.id == fulleKeyId) = some s →
        (truthy s.publicKeyPem = true →
          getPublicKey fulleKeyId doc keyId? =
            .ok (bufferFromUtf8 (s.publicKeyPem.getD ""))) ∧
        (truthy s.publicKeyPem = false → truthy s.publicKeyBase58 = true →
          getPublicKey fulleKeyId doc keyId? =
            .ok (bufferFromUtf8 (s.publicKeyBase58.getD ""))) ∧
        (truthy s.publicKeyPem = false → truthy s.publicKeyBase58 = false →
          ∀ hx, s.publicKeyHex = some hx →
            getPublicKey fulleKeyId doc keyId? = .ok (bufferFromHex hx.data))) := by
  intro fulleKeyId doc keyId?
  constructor
  · constructor
    · intro hkn
      cases hfind : doc.publicKey.find? (fun sec =>
          sec.id == resolveKeyId fulleKeyId keyId? || sec.id == fulleKeyId) with
      | none =>
        intro s hs
        have hp := List.find?_eq_none.mp hfind s hs
        constructor
        · intro hc
          exact hp (by simp [hc])
        · intro hc
          exact hp (by simp [hc])
      | some s =>
        exact absurd hkn (getPublicKey_found_ne fulleKeyId doc keyId? s hfind)
    · intro hall
      have hnone : doc.publicKey.find? (fun sec =>
          sec.id == resolveKeyId fulleKeyId keyId? || sec.id == fulleKeyId) = none := by
        rw [List.find?_eq_none]
        intro s hs
        have := hall s hs
        simp [this.1, this.2]
      rw [getPublicKey_eq, hnone]
  · intro s hfind
    refine ⟨?_, ?_, ?_⟩
    · intro h1
      rw [getPublicKey_eq, hfind]
      simp [h1]
    · intro h1 h2
      rw [getPublicKey_eq, hfind]
      simp [h1, h2]
    · intro h1 h2 hx hhex
      rw [getPublicKey_eq, hfind]
      simp [h1, h2, hhex]

/-- A key section carrying all three encodings at once. -/
def prioritySection : PublicKeySection :=
  ⟨"did:elem:xyz#primary", some "pem-material", some "base58-material", some "ff00"⟩

/-- Witness for C8 (amended): on a section carrying all three
encodings the PEM bytes are returned, and on an empty document the
lookup fails with KeyNotFound. -/
theorem didDoc_getPublicKey_amended_witness :
    getPublicKey "did:elem:xyz#primary" ⟨[prioritySection]⟩ none =
      .ok (bufferFromUtf8 "pem-material") ∧
    getPublicKey "did:elem:missing#k" ⟨[]⟩ none = .error .keyNotFound := by
  constructor
  · exact ((didDoc_getPublicKey_amended "did:elem:xyz#primary" ⟨[prioritySection]⟩ none).2
      prioritySection (by decide)).1 (by decide)
  · exact (didDoc_getPublicKey_amended "did:elem:missing#k" ⟨[]⟩ none).1.mpr (by simp)

/-- C9: `parseDid` returns a three-element sequence
`[method, methodSpecificId, parameters]` — the components after the
leading scheme element of the `:`-split — with no validation and no
possible error: on malformed input the missing elements are `none`
(JavaScript `undefined`). -/
theorem didDoc_parseDid_spec :
    ∀ s : String,
      (parseDid s).length = 3 ∧
      parseDid s =
        [(jsSplitString ':' s)[1]?, (jsSplitString ':' s)[2]?, (jsSplitString ':' s)[3]?] ∧
      ((jsSplitString ':' s).length ≤ 1 → parseDid s = [none, none, none]) := by
  intro s
  refine ⟨rfl, rfl, ?_⟩
  intro h
  have hx : parseDid s =
      [(jsSplitString ':' s)[1]?, (jsSplitString ':' s)[2]?, (jsSplitString ':' s)[3]?] := rfl
  have h1 : (jsSplitString ':' s)[1]? = none := List.getElem?_eq_none (by omega)
  have h2 : (jsSplitString ':' s)[2]? = none := List.getElem?_eq_none (by omega)
  have h3 : (jsSplitString ':' s)[3]? = none := List.getElem?_eq_none (by omega)
  rw [hx, h1, h2, h3]

/-- Witness for C9: a parameterised DID splits into its three trailing
components, and a string without any colon yields three `none`s. -/
theorem didDoc_parseDid_spec_witness :
    parseDid "did:example:21tDAKCERh95uGgKbJNHYp;service=agent" =
      [some "example", some "21tDAKCERh95uGgKbJNHYp;service=agent", none] ∧
    parseDid "no-colons-here" = [none, none, none] := by
  constructor
  · rfl
  · exact (didDoc_parseDid_spec "no-colons-here").2.2 (by decide)

/-- C10: a publicKey entry whose id equals the original full key-id
argument verbatim is accepted in addition to one matching the resolved
target key id: whenever such an entry exists, `getPublicKey` does not
fail with KeyNotFound, and the entry found matches the target or the
full key id — even when the two differ. -/
theorem didDoc_getPublicKey_full_key_id_spec :
    ∀ (fulleKeyId : String) (doc : DidDocument) (keyId? : Option String),
      (∃ s ∈ doc.publicKey, s.id = fulleKeyId) →
      getPublicKey fulleKeyId doc keyId? ≠ .error .keyNotFound ∧
      ∃ s, doc.publicKey.find? (fun sec =>
          sec.id == resolveKeyId fulleKeyId keyId? || sec.id == fulleKeyId) = some s ∧
        (s.id = resolveKeyId fulleKeyId keyId? ∨ s.id = fulleKeyId) := by
  intro fulleKeyId doc keyId? hex0
  obtain ⟨s0, hs0, hid⟩ := hex0
  have hsome : (doc.publicKey.find? (fun sec =>
      sec.id == resolveKeyId fulleKeyId keyId? || sec.id == fulleKeyId)).isSome := by
    rw [List.find?_isSome]
    exact ⟨s0, hs0, by simp [hid]⟩
  obtain ⟨s, hfind⟩ := Option.isSome_iff_exists.mp hsome
  refine ⟨getPublicKey_found_ne fulleKeyId doc keyId? s hfind, s, hfind, ?_⟩
  have hp := List.find?_some hfind
  simpa using hp

/-- Witness for C10: the document entry `did:elem:abc` equals the full
key id verbatim while the resolved target is `did:elem:abc#` (the
fragment reconstruction differs), and the lookup still succeeds. -/
theorem didDoc_getPublicKey_full_key_id_spec_witness :
    getPublicKey "did:elem:abc" ⟨[⟨"did:elem:abc", none, some "b58-material", none⟩]⟩ none =
      .ok (bufferFromUtf8 "b58-material") ∧
    resolveKeyId "did:elem:abc" none ≠ "did:elem:abc" ∧
    getPublicKey "did:elem:abc" ⟨[⟨"did:elem:abc", none, some "b58-material", none⟩]⟩ none ≠
      .error .keyNotFound := by
  refine ⟨rfl, by decide, ?_⟩
  exact ((didDoc_getPublicKey_full_key_id_spec "did:elem:abc"
    ⟨[⟨"did:elem:abc", none, some "b58-material", none⟩]⟩ none)
    ⟨⟨"did:elem:abc", none, some "b58-material", none⟩, by simp, rfl⟩).1
